import Mathlib

/-!
Shallow embedding of the transaction transformation pipeline of
`financial_tracker` (`src/financial_tracker/transformations/transform.py`)
and verification of the specification's claims about it.

A polars `DataFrame` of transactions is modelled as a `List` of records;
a row-wise `with_columns` is a `List.map`; `DataFrame.filter` is
`List.filter`.  Dates are modelled as already-parsed integers (day
numbers); the `str.strptime` call of `process_data` is modelled by an
explicit parse function `String → Int`, since none of the verified
properties depend on the concrete date grammar.  Amounts are integers in
minor currency units.  Polars `str.contains` is modelled as a literal
case-sensitive substring test (the specification fixes keyword matching
as a plain substring test; regex metacharacter behaviour is outside the
model).  The session-scoped `st.session_state["category_keywords_json"]`
configuration is passed explicitly as an ordered association list, which
models Python's insertion-ordered `dict`.
-/

namespace FinancialTracker

/-- ASCII model of polars `str.to_titlecase`: the first letter of each
maximal alphabetic run is upper-cased, the remaining letters of the run
are lower-cased, and non-alphabetic characters are kept. The `Bool`
argument records whether the previous character was alphabetic. -/
def toTitlecaseAux : Bool → List Char → List Char
  | _, [] => []
  | prevAlpha, c :: cs =>
    if c.isAlpha then
      (if prevAlpha then c.toLower else c.toUpper) :: toTitlecaseAux true cs
    else
      c :: toTitlecaseAux false cs

/-- Model of polars `Expr.str.to_titlecase` applied to a string value. -/
def toTitlecase (s : String) : String :=
  ⟨toTitlecaseAux false s.data⟩

/-- Model of polars `Expr.str.contains`: `strContains s kw` holds when
`kw` occurs as a case-sensitive contiguous substring of `s`. -/
def strContains (s kw : String) : Bool :=
  decide (kw.data <:+: s.data)

/-- Model of polars `Expr.str.starts_with`: a literal, case-sensitive
prefix test on the string's characters. -/
def strStartsWith (s p : String) : Bool :=
  p.data.isPrefixOf s.data

/-- Canonical transaction row: the columns `date, type, transaction,
category, title, amount` produced by the pipeline. -/
structure Row where
  date : Int
  type : String
  transaction : String
  category : String
  title : String
  amount : Int
deriving DecidableEq, Repr

/-- Raw input row for `process_data`, after any source-specific renaming:
columns `date` (still a string), `category` (present in the credit-card
export; a placeholder for the account export, whose frame has no category
column — see `has_category_column` on `categorize_data`), `title`,
`amount`. -/
structure RawRow where
  date : String
  category : String
  title : String
  amount : Int
deriving DecidableEq, Repr

/-- Raw account-feed row with the bank export's column names
(`Data`, `Valor`, `Descrição`), before the `rename` step. -/
structure AccountRaw where
  Data : String
  Valor : Int
  Descricao : String
deriving DecidableEq, Repr

/-- The `alternative_category : str | pl.Expr` argument of
`categorize_data`, restricted to the expression shapes the program
builds: a literal string (`pl.lit`), or
`pl.col("category").str.to_titlecase()`. -/
inductive AltCategory where
  | lit : String → AltCategory
  | colCategoryTitlecase : AltCategory
deriving DecidableEq, Repr

/-- Row-wise evaluation of an `AltCategory` expression, given the row's
current `category` value. -/
def evalAlt : AltCategory → String → String
  | .lit s, _ => s
  | .colCategoryTitlecase, c => toTitlecase c

/-- The `transaction_type : str | pl.Expr` argument of `process_data`:
either a plain string (broadcast to the whole column) or a row-wise
expression on the `title` column (the `when/then` prefix chain built by
`process_data_account`). -/
inductive TransactionTypeArg where
  | const : String → TransactionTypeArg
  | expr : (String → String) → TransactionTypeArg

/-- Row-wise value of the `transaction` column assigned by
`process_data`: the `isinstance(transaction_type, pl.Expr)` branch
evaluates the expression on the row's title, the string branch
broadcasts the constant (`pl.lit`). -/
def evalTransactionType : TransactionTypeArg → String → String
  | .const s, _ => s
  | .expr f, title => f title

/-- `with_columns` of a row-wise string expression aliased `category`:
rewrites the whole category column, leaving every other column unchanged. -/
def with_category (data : List Row) (f : Row → String) : List Row :=
  data.map fun r => { r with category := f r }

/-- Embedding of `Transform.categorize_data`.  `has_category_column`
models the Python test `"category" in data.columns`; `category_keywords`
is the insertion-ordered dict as an association list.  When the keyword
mapping is non-empty, the source iterates over every `(category,
keyword)` pair and on each iteration rewrites the whole `category`
column with `when(title contains keyword).then(category)
.otherwise(alternative_category)`. -/
def categorize_data (data : List Row) (has_category_column : Bool)
    (category_keywords : List (String × List String))
    (alternative_category : AltCategory) : List Row :=
  if category_keywords.isEmpty = false then
    category_keywords.foldl
      (fun d p =>
        p.2.foldl
          (fun d2 keyword =>
            with_category d2 fun r =>
              if strContains r.title keyword then p.1
              else evalAlt alternative_category r.category)
          d)
      data
  else
    if has_category_column = false then
      with_category data fun _ => "Outros"
    else
      with_category data fun r => toTitlecase r.category

/-- Embedding of `Transform.process_data`.  `parse_date` models
`str.strptime(pl.Date, format=date_format)` for the given source's
format (the claims under verification do not depend on the date
grammar; per the fail-fast contract every row of the batch parses). -/
def process_data (data : List RawRow) (parse_date : String → Int)
    (amount_multiplier : Int) (transaction_type : TransactionTypeArg)
    (unwanted_keywords : List String) : List Row :=
  ((data.map fun r =>
      let amount := r.amount * amount_multiplier
      ({ date := parse_date r.date
         type := if amount > 0 then "Entrada" else "Saída"
         transaction := evalTransactionType transaction_type r.title
         category := r.category
         title := r.title
         amount := amount } : Row))
    ).filter fun r => !(decide (r.title ∈ unwanted_keywords))

/-- The `when/then` title chain `process_data_account` passes as
`transaction_type` (an ordered sequence of `starts_with` tests,
first match wins). -/
def account_transaction_rule (title : String) : String :=
  if strStartsWith title "Transferência" then "Transferência"
  else if strStartsWith title "Estorno" then "Estorno"
  else if strStartsWith title "Compra no débito" then "Débito"
  else "Outros"

/-- The `rename({"Data": "date", "Valor": "amount", "Descrição":
"title"})` step of `process_data_account`, applied row-wise.  The
account frame has no category column; the placeholder value `""` is
never read because `categorize_data` is invoked with
`has_category_column = false` and a literal alternative. -/
def rename_account (r : AccountRaw) : RawRow :=
  { date := r.Data, category := "", title := r.Descricao, amount := r.Valor }

/-- Embedding of `Transform.process_data_account`: rename, then
`process_data` with multiplier `+1`, the title-prefix transaction rule
and unwanted keyword `"Pagamento de fatura"`, then `categorize_data`
with the session keyword configuration and constant alternative
`pl.lit("Outros")`.  The final column `select` only reorders columns and
is the identity on the record model. -/
def process_data_account (data : List AccountRaw) (parse_date : String → Int)
    (category_keywords : List (String × List String)) : List Row :=
  categorize_data
    (process_data (data.map rename_account) parse_date 1
      (.expr account_transaction_rule) ["Pagamento de fatura"])
    false category_keywords (.lit "Outros")

/-- Embedding of `Transform.process_data_credit_card`: `process_data`
with multiplier `-1`, constant transaction type `"Crédito"` and unwanted
keyword `"Pagamento recebido"`, then `categorize_data` with the session
keyword configuration and alternative
`pl.col("category").str.to_titlecase()` (the credit-card export carries
a `category` column). -/
def process_data_credit_card (data : List RawRow) (parse_date : String → Int)
    (category_keywords : List (String × List String)) : List Row :=
  categorize_data
    (process_data data parse_date (-1) (.const "Crédito") ["Pagamento recebido"])
    true category_keywords .colCategoryTitlecase

/-- Embedding of `Transform.concat_sort_data`: `pl.concat` of the input
frames followed by `sort(date_column, descending=True)`.  `date_column`
is modelled as the key the named column projects out of a row. -/
def concat_sort_data (data : List (List Row)) (date_column : Row → Int) : List Row :=
  (data.flatten).mergeSort fun a b => decide (date_column b ≤ date_column a)

/-- Embedding of `Transform.filter_data`: keep the rows satisfying the
conjunction of the date-range bounds and the three `is_in` membership
tests. -/
def filter_data (data : List Row) (start_date end_date : Int)
    (types : List String) (transactions : List String)
    (categories : List String) : List Row :=
  data.filter fun r =>
    decide (start_date ≤ r.date) && decide (r.date ≤ end_date) &&
    decide (r.type ∈ types) && decide (r.transaction ∈ transactions) &&
    decide (r.category ∈ categories)

/-! ### Frame lemmas

`categorize_data` only ever rewrites the `category` column.  The
following infrastructure records that fact pairwise between the input
and output row lists. -/

/-- Two rows agree on every column except possibly `category`. -/
def EqExceptCategory (r r' : Row) : Prop :=
  r'.date = r.date ∧ r'.type = r.type ∧ r'.transaction = r.transaction ∧
  r'.title = r.title ∧ r'.amount = r.amount

/-- Two frames have the same rows in the same order up to the
`category` column. -/
def FrameEq (l l' : List Row) : Prop :=
  List.Forall₂ EqExceptCategory l l'

theorem eqExceptCategory_refl (r : Row) : EqExceptCategory r r :=
  ⟨rfl, rfl, rfl, rfl, rfl⟩

theorem eqExceptCategory_trans {r r' r'' : Row}
    (h : EqExceptCategory r r') (h' : EqExceptCategory r' r'') :
    EqExceptCategory r r'' :=
  ⟨h'.1.trans h.1, h'.2.1.trans h.2.1, h'.2.2.1.trans h.2.2.1,
   h'.2.2.2.1.trans h.2.2.2.1, h'.2.2.2.2.trans h.2.2.2.2⟩

/-- `List.map` relates a list to its image pointwise. -/
theorem forall₂_map_self {α β : Type} {R : α → β → Prop} (f : α → β)
    (h : ∀ a, R a (f a)) : ∀ l : List α, List.Forall₂ R l (l.map f)
  | [] => List.Forall₂.nil
  | a :: t => List.Forall₂.cons (h a) (forall₂_map_self f h t)

theorem forall₂_exists_right {α β : Type} {R : α → β → Prop}
    {l : List α} {l' : List β} (h : List.Forall₂ R l l') :
    ∀ {a : α}, a ∈ l → ∃ b ∈ l', R a b := by
  induction h with
  | nil => intro a ha; cases ha
  | cons hR _ ih =>
    intro a ha
    cases ha with
    | head => exact ⟨_, List.mem_cons_self _ _, hR⟩
    | tail _ ha =>
      obtain ⟨b, hb, hRb⟩ := ih ha
      exact ⟨b, List.mem_cons_of_mem _ hb, hRb⟩

theorem forall₂_exists_left {α β : Type} {R : α → β → Prop}
    {l : List α} {l' : List β} (h : List.Forall₂ R l l') :
    ∀ {b : β}, b ∈ l' → ∃ a ∈ l, R a b := by
  induction h with
  | nil => intro b hb; cases hb
  | cons hR _ ih =>
    intro b hb
    cases hb with
    | head => exact ⟨_, List.mem_cons_self _ _, hR⟩
    | tail _ hb =>
      obtain ⟨a, ha, hRa⟩ := ih hb
      exact ⟨a, List.mem_cons_of_mem _ ha, hRa⟩

theorem frameEq_refl : ∀ l : List Row, FrameEq l l
  | [] => List.Forall₂.nil
  | r :: t => List.Forall₂.cons (eqExceptCategory_refl r) (frameEq_refl t)

theorem frameEq_trans : ∀ {l₁ l₂ l₃ : List Row},
    FrameEq l₁ l₂ → FrameEq l₂ l₃ → FrameEq l₁ l₃ := by
  intro l₁ l₂ l₃ h₁
  induction h₁ generalizing l₃ with
  | nil => intro h₂; cases h₂; exact List.Forall₂.nil
  | cons hR _ ih =>
    intro h₂
    cases h₂ with
    | cons hR' t' => exact List.Forall₂.cons (eqExceptCategory_trans hR hR') (ih t')

theorem frameEq_with_category (l : List Row) (f : Row → String) :
    FrameEq l (with_category l f) :=
  forall₂_map_self _ (fun _ => ⟨rfl, rfl, rfl, rfl, rfl⟩) l

/-- A fold whose every step preserves the frame up to `category`
preserves it overall. -/
theorem frameEq_foldl {α : Type} (g : List Row → α → List Row)
    (hg : ∀ d a, FrameEq d (g d a)) :
    ∀ (xs : List α) (d : List Row), FrameEq d (xs.foldl g d)
  | [], _ => frameEq_refl _
  | a :: t, d => frameEq_trans (hg d a) (frameEq_foldl g hg t (g d a))

/-- `categorize_data` only rewrites the `category` column: the output
frame has the same rows in the same order, equal on every other column. -/
theorem frameEq_categorize (data : List Row) (has_category_column : Bool)
    (category_keywords : List (String × List String))
    (alternative_category : AltCategory) :
    FrameEq data
      (categorize_data data has_category_column category_keywords alternative_category) := by
  unfold categorize_data
  split
  · exact frameEq_foldl _
      (fun d p => frameEq_foldl _ (fun d2 kw => frameEq_with_category d2 _) p.2 d)
      category_keywords data
  · split
    · exact frameEq_with_category data _
    · exact frameEq_with_category data _

/-- Inversion for `process_data` membership: every output row is the
image of an input row whose title is not an unwanted keyword. -/
theorem mem_process_data_elim {data : List RawRow} {parse_date : String → Int}
    {amount_multiplier : Int} {transaction_type : TransactionTypeArg}
    {unwanted_keywords : List String} {r : Row}
    (hr : r ∈ process_data data parse_date amount_multiplier transaction_type
            unwanted_keywords) :
    ∃ raw ∈ data,
      r.date = parse_date raw.date ∧
      r.type = (if 0 < raw.amount * amount_multiplier then "Entrada" else "Saída") ∧
      r.transaction = evalTransactionType transaction_type raw.title ∧
      r.category = raw.category ∧
      r.title = raw.title ∧
      r.amount = raw.amount * amount_multiplier ∧
      r.title ∉ unwanted_keywords := by
  unfold process_data at hr
  rw [List.mem_filter] at hr
  obtain ⟨hm, hf⟩ := hr
  rw [List.mem_map] at hm
  obtain ⟨raw, hraw, rfl⟩ := hm
  exact ⟨raw, hraw, rfl, rfl, rfl, rfl, rfl, rfl, by simpa using hf⟩

/-- Introduction for `process_data` membership: an input row whose title
is not an unwanted keyword contributes an output row with the same
title. -/
theorem process_data_retains_title {data : List RawRow} {parse_date : String → Int}
    {amount_multiplier : Int} {transaction_type : TransactionTypeArg}
    {unwanted_keywords : List String} {raw : RawRow} (hraw : raw ∈ data)
    (ht : raw.title ∉ unwanted_keywords) :
    ∃ r0 ∈ process_data data parse_date amount_multiplier transaction_type
             unwanted_keywords,
      r0.title = raw.title := by
  refine ⟨{ date := parse_date raw.date,
            type := if 0 < raw.amount * amount_multiplier then "Entrada" else "Saída",
            transaction := evalTransactionType transaction_type raw.title,
            category := raw.category, title := raw.title,
            amount := raw.amount * amount_multiplier }, ?_, rfl⟩
  unfold process_data
  rw [List.mem_filter]
  exact ⟨List.mem_map.mpr ⟨raw, hraw, rfl⟩, by simpa using ht⟩

/-! ### Claims -/

/-- Claim C1, evaluated at a failing input.  With the ordered mapping
`Food ↦ ["Pizza"], Dining ↦ ["sushi"]` and the account feed's constant
fallback `pl.lit("Outros")`, the row titled `"Pizza Hut"` matches the
keyword of the earlier pair (`Food`, `"Pizza"`) and no later pair, so by
the claim its category must be `"Food"` and it must not receive the
fallback.  The code instead produces `"Outros"`: every `(category,
keyword)` iteration rewrites the whole `category` column and its
`otherwise` branch resets previously matched rows to the fallback, so
with a constant fallback only the final pair of the mapping matters. -/
theorem categorize_constant_fallback_discards_earlier_match :
    strContains "Pizza Hut" "Pizza" = true ∧
    strContains "Pizza Hut" "sushi" = false ∧
    categorize_data
        [{ date := 0, type := "Saída", transaction := "Débito", category := "",
           title := "Pizza Hut", amount := -10 }] false
        [("Food", ["Pizza"]), ("Dining", ["sushi"])] (.lit "Outros")
      = [{ date := 0, type := "Saída", transaction := "Débito", category := "Outros",
           title := "Pizza Hut", amount := -10 }] :=
  ⟨by decide, by decide, by decide⟩

/-- Claim C2: for every input row surviving `process_data`, after the
amount has been multiplied by the source's sign multiplier the row's
`type` is `"Entrada"` (Income) exactly when the normalized amount is
strictly positive, and `"Saída"` (Expense) for every non-positive
normalized amount; in particular a normalized amount of exactly `0`
yields `"Saída"`. -/
theorem process_data_type_from_sign
    (data : List RawRow) (parse_date : String → Int) (amount_multiplier : Int)
    (transaction_type : TransactionTypeArg) (unwanted_keywords : List String)
    (r : Row)
    (hr : r ∈ process_data data parse_date amount_multiplier transaction_type
            unwanted_keywords) :
    (r.type = "Entrada" ↔ 0 < r.amount) ∧
    (r.amount ≤ 0 → r.type = "Saída") ∧
    (r.amount = 0 → r.type = "Saída") := by
  unfold process_data at hr
  rw [List.mem_filter] at hr
  obtain ⟨hm, -⟩ := hr
  rw [List.mem_map] at hm
  obtain ⟨raw, -, rfl⟩ := hm
  dsimp only
  by_cases h : 0 < raw.amount * amount_multiplier
  · refine ⟨by simp [h], ?_, ?_⟩
    · intro h0
      exfalso
      omega
    · intro h0
      exfalso
      omega
  · exact ⟨by simp [h], fun _ => by simp [h], fun _ => by simp [h]⟩

/-- Raw row with a negative amount used by the C2 witness. -/
def sampleNegativeRaw : RawRow :=
  { date := "d", category := "c", title := "t", amount := -3 }

/-- Output row `process_data` produces from `sampleNegativeRaw` with
multiplier `+1`: its normalized amount is negative, so its type is
`"Saída"`. -/
def sampleNegativeOut : Row :=
  { date := 7, type := "Saída", transaction := "Crédito", category := "c", title := "t", amount := -3 }

/-- Witness for C2 at a concrete row whose normalized amount is
negative, exercising the `"Saída"`-otherwise branch. -/
theorem process_data_type_from_sign_witness :
    sampleNegativeOut ∈
      process_data [sampleNegativeRaw] (fun _ => 7) 1 (.const "Crédito") [] ∧
    ((sampleNegativeOut.type = "Entrada" ↔ 0 < sampleNegativeOut.amount) ∧
      (sampleNegativeOut.amount ≤ 0 → sampleNegativeOut.type = "Saída") ∧
      (sampleNegativeOut.amount = 0 → sampleNegativeOut.type = "Saída")) :=
  ⟨by decide,
   process_data_type_from_sign [sampleNegativeRaw]
     (fun _ => 7) 1 (.const "Crédito") [] _ (by decide)⟩

/-- Claim C3: every credit-card row surviving normalization has
`transaction = "Crédito"` and an amount equal to the negation of its raw
statement amount (multiplier `-1`); every account row's amount passes
through unchanged (multiplier `+1`). -/
theorem amount_sign_normalization (dataC : List RawRow) (dataA : List AccountRaw)
    (parse_date : String → Int) (category_keywords : List (String × List String)) :
    (∀ r ∈ process_data_credit_card dataC parse_date category_keywords,
        r.transaction = "Crédito" ∧
        ∃ raw ∈ dataC, r.title = raw.title ∧ r.amount = -raw.amount) ∧
    (∀ r ∈ process_data_account dataA parse_date category_keywords,
        ∃ raw ∈ dataA, r.title = raw.Descricao ∧ r.amount = raw.Valor) := by
  constructor
  · intro r hr
    unfold process_data_credit_card at hr
    obtain ⟨r0, hr0, heq⟩ := forall₂_exists_left (frameEq_categorize _ _ _ _) hr
    obtain ⟨raw, hraw, -, -, htrans, -, htitle, hamt, -⟩ := mem_process_data_elim hr0
    refine ⟨?_, raw, hraw, ?_, ?_⟩
    · rw [heq.2.2.1]; exact htrans
    · rw [heq.2.2.2.1]; exact htitle
    · rw [heq.2.2.2.2, hamt, mul_neg_one]
  · intro r hr
    unfold process_data_account at hr
    obtain ⟨r0, hr0, heq⟩ := forall₂_exists_left (frameEq_categorize _ _ _ _) hr
    obtain ⟨raw', hraw', -, -, -, -, htitle, hamt, -⟩ := mem_process_data_elim hr0
    rw [List.mem_map] at hraw'
    obtain ⟨raw, hraw, rfl⟩ := hraw'
    refine ⟨raw, hraw, ?_, ?_⟩
    · rw [heq.2.2.2.1, htitle]; rfl
    · rw [heq.2.2.2.2, hamt]
      show raw.Valor * 1 = raw.Valor
      rw [mul_one]

/-- Sample credit-card statement row used by the C3 witness. -/
def sampleCreditRaw : RawRow :=
  { date := "d", category := "mercado", title := "t", amount := 5 }

/-- Output row the pipeline produces from `sampleCreditRaw`. -/
def sampleCreditOut : Row :=
  { date := 3, type := "Saída", transaction := "Crédito", category := "Mercado", title := "t", amount := -5 }

/-- Sample bank-export row used by the C3 witness. -/
def sampleAccountRaw : AccountRaw :=
  { Data := "d", Valor := 8, Descricao := "u" }

/-- Output row the pipeline produces from `sampleAccountRaw`. -/
def sampleAccountOut : Row :=
  { date := 3, type := "Entrada", transaction := "Outros", category := "Outros", title := "u", amount := 8 }

/-- Witness for C3 at concrete one-row feeds. -/
theorem amount_sign_normalization_witness :
    (sampleCreditOut ∈ process_data_credit_card [sampleCreditRaw] (fun _ => 3) [] ∧
      (sampleCreditOut.transaction = "Crédito" ∧
        ∃ raw ∈ [sampleCreditRaw],
          sampleCreditOut.title = raw.title ∧ sampleCreditOut.amount = -raw.amount)) ∧
    (sampleAccountOut ∈ process_data_account [sampleAccountRaw] (fun _ => 3) [] ∧
      ∃ raw ∈ [sampleAccountRaw],
        sampleAccountOut.title = raw.Descricao ∧ sampleAccountOut.amount = raw.Valor) :=
  ⟨⟨by decide,
    (amount_sign_normalization [sampleCreditRaw] [sampleAccountRaw] (fun _ => 3) []).1
      _ (by decide)⟩,
   ⟨by decide,
    (amount_sign_normalization [sampleCreditRaw] [sampleAccountRaw] (fun _ => 3) []).2
      _ (by decide)⟩⟩

/-- Claim C8: every row produced by the account pipeline carries the
`transaction` value given by the ordered first-match-wins title-prefix
tests: `"Transferência"`, then `"Estorno"`, then `"Compra no débito"`
(yielding `"Débito"`), else `"Outros"`. -/
theorem account_transaction_from_title (data : List AccountRaw)
    (parse_date : String → Int) (category_keywords : List (String × List String))
    (r : Row) (hr : r ∈ process_data_account data parse_date category_keywords) :
    r.transaction =
      if strStartsWith r.title "Transferência" then "Transferência"
      else if strStartsWith r.title "Estorno" then "Estorno"
      else if strStartsWith r.title "Compra no débito" then "Débito"
      else "Outros" := by
  unfold process_data_account at hr
  obtain ⟨r0, hr0, heq⟩ := forall₂_exists_left (frameEq_categorize _ _ _ _) hr
  obtain ⟨raw', -, -, -, htrans, -, htitle, -, -⟩ := mem_process_data_elim hr0
  rw [heq.2.2.1, heq.2.2.2.1, htrans, htitle]
  rfl

/-- Sample debit-purchase bank row used by the C8 witness. -/
def sampleDebitRaw : AccountRaw :=
  { Data := "d", Valor := -2, Descricao := "Compra no débito X" }

/-- Output row the pipeline produces from `sampleDebitRaw`. -/
def sampleDebitOut : Row :=
  { date := 3, type := "Saída", transaction := "Débito", category := "Outros", title := "Compra no débito X", amount := -2 }

/-- Witness for C8 at a concrete debit-purchase row. -/
theorem account_transaction_from_title_witness :
    (sampleDebitOut ∈ process_data_account [sampleDebitRaw] (fun _ => 3) []) ∧
    sampleDebitOut.transaction =
      (if strStartsWith sampleDebitOut.title "Transferência" then "Transferência"
       else if strStartsWith sampleDebitOut.title "Estorno" then "Estorno"
       else if strStartsWith sampleDebitOut.title "Compra no débito" then "Débito"
       else "Outros") :=
  ⟨by decide,
   account_transaction_from_title [sampleDebitRaw] (fun _ => 3) [] _ (by decide)⟩

/-- Claim C4: neither feed's output contains a row whose title is
exactly an unwanted keyword (`"Pagamento de fatura"` for the account
feed, `"Pagamento recebido"` for the credit-card feed), while a row
whose title merely contains the keyword as a proper substring without
being equal to it is retained. -/
theorem unwanted_keyword_exact_match_filter
    (dataA : List AccountRaw) (dataC : List RawRow) (parse_date : String → Int)
    (category_keywords : List (String × List String)) :
    (∀ r ∈ process_data_account dataA parse_date category_keywords,
        r.title ≠ "Pagamento de fatura") ∧
    (∀ r ∈ process_data_credit_card dataC parse_date category_keywords,
        r.title ≠ "Pagamento recebido") ∧
    (∀ raw ∈ dataA, strContains raw.Descricao "Pagamento de fatura" = true →
        raw.Descricao ≠ "Pagamento de fatura" →
        ∃ r ∈ process_data_account dataA parse_date category_keywords,
          r.title = raw.Descricao) ∧
    (∀ raw ∈ dataC, strContains raw.title "Pagamento recebido" = true →
        raw.title ≠ "Pagamento recebido" →
        ∃ r ∈ process_data_credit_card dataC parse_date category_keywords,
          r.title = raw.title) := by
  refine ⟨?_, ?_, ?_, ?_⟩
  · intro r hr
    unfold process_data_account at hr
    obtain ⟨r0, hr0, heq⟩ := forall₂_exists_left (frameEq_categorize _ _ _ _) hr
    obtain ⟨raw', -, -, -, -, -, -, -, hnot⟩ := mem_process_data_elim hr0
    rw [heq.2.2.2.1]
    simpa using hnot
  · intro r hr
    unfold process_data_credit_card at hr
    obtain ⟨r0, hr0, heq⟩ := forall₂_exists_left (frameEq_categorize _ _ _ _) hr
    obtain ⟨raw', -, -, -, -, -, -, -, hnot⟩ := mem_process_data_elim hr0
    rw [heq.2.2.2.1]
    simpa using hnot
  · intro raw hraw _ hne
    have hmem : rename_account raw ∈ dataA.map rename_account :=
      List.mem_map_of_mem _ hraw
    have ht : (rename_account raw).title ∉ ["Pagamento de fatura"] := by
      simpa [rename_account] using hne
    obtain ⟨r0, hr0, htitle⟩ := process_data_retains_title hmem ht
    unfold process_data_account
    obtain ⟨r, hr, heq⟩ := forall₂_exists_right (frameEq_categorize _ _ _ _) hr0
    refine ⟨r, hr, ?_⟩
    rw [heq.2.2.2.1, htitle]
    rfl
  · intro raw hraw _ hne
    have ht : raw.title ∉ ["Pagamento recebido"] := by simpa using hne
    obtain ⟨r0, hr0, htitle⟩ := process_data_retains_title hraw ht
    unfold process_data_credit_card
    obtain ⟨r, hr, heq⟩ := forall₂_exists_right (frameEq_categorize _ _ _ _) hr0
    refine ⟨r, hr, ?_⟩
    rw [heq.2.2.2.1, htitle]

/-- Bank row whose title contains the account feed's unwanted keyword
as a proper substring, used by the C4 witness. -/
def sampleFaturaLikeRaw : AccountRaw :=
  { Data := "d", Valor := 1, Descricao := "x Pagamento de fatura" }

/-- Credit-card row whose title contains the credit-card feed's unwanted
keyword as a proper substring, used by the C4 witness. -/
def sampleRecebidoLikeRaw : RawRow :=
  { date := "d", category := "c", title := "Pagamento recebido 2", amount := 1 }

/-- Witness for C4: both proper-superstring rows are retained. -/
theorem unwanted_keyword_exact_match_filter_witness :
    (∃ r ∈ process_data_account [sampleFaturaLikeRaw] (fun _ => 3) [],
        r.title = sampleFaturaLikeRaw.Descricao) ∧
    (∃ r ∈ process_data_credit_card [sampleRecebidoLikeRaw] (fun _ => 3) [],
        r.title = sampleRecebidoLikeRaw.title) :=
  ⟨(unwanted_keyword_exact_match_filter [sampleFaturaLikeRaw] [sampleRecebidoLikeRaw]
      (fun _ => 3) []).2.2.1 sampleFaturaLikeRaw (by decide) (by decide) (by decide),
   (unwanted_keyword_exact_match_filter [sampleFaturaLikeRaw] [sampleRecebidoLikeRaw]
      (fun _ => 3) []).2.2.2 sampleRecebidoLikeRaw (by decide) (by decide) (by decide)⟩

/-- Claim C5: `filter_data` retains exactly the rows satisfying the
conjunction of the inclusive date-range bounds and the three membership
tests; an empty allowed list gives an empty result, and an inverted
date range gives an empty result rather than an error. -/
theorem filter_data_conjunction (data : List Row) (start_date end_date : Int)
    (types : List String) (transactions : List String)
    (categories : List String) :
    (∀ r, r ∈ filter_data data start_date end_date types transactions categories ↔
        r ∈ data ∧ start_date ≤ r.date ∧ r.date ≤ end_date ∧ r.type ∈ types ∧
        r.transaction ∈ transactions ∧ r.category ∈ categories) ∧
    (types = [] ∨ transactions = [] ∨ categories = [] →
      filter_data data start_date end_date types transactions categories = []) ∧
    (end_date < start_date →
      filter_data data start_date end_date types transactions categories = []) := by
  have hmem : ∀ r,
      r ∈ filter_data data start_date end_date types transactions categories ↔
        r ∈ data ∧ start_date ≤ r.date ∧ r.date ≤ end_date ∧ r.type ∈ types ∧
        r.transaction ∈ transactions ∧ r.category ∈ categories := by
    intro r
    simp [filter_data, List.mem_filter, and_assoc]
  refine ⟨hmem, ?_, ?_⟩
  · intro h
    rw [List.eq_nil_iff_forall_not_mem]
    intro r hr
    rw [hmem r] at hr
    rcases h with h | h | h <;> rw [h] at hr <;> simp at hr
  · intro h
    rw [List.eq_nil_iff_forall_not_mem]
    intro r hr
    rw [hmem r] at hr
    obtain ⟨-, h1, h2, -⟩ := hr
    omega

/-- Row used by the C5 witness. -/
def sampleFilterRow : Row :=
  { date := 5, type := "Entrada", transaction := "Crédito", category := "Food", title := "t", amount := 1 }

/-- Witness for C5 at concrete inputs: a membership instance, the
empty-allow-list case, and the inverted-date-range case. -/
theorem filter_data_conjunction_witness :
    (sampleFilterRow ∈
        filter_data [sampleFilterRow] 0 10 ["Entrada"] ["Crédito"] ["Food"] ↔
      sampleFilterRow ∈ [sampleFilterRow] ∧ (0 : Int) ≤ sampleFilterRow.date ∧
        sampleFilterRow.date ≤ 10 ∧ sampleFilterRow.type ∈ ["Entrada"] ∧
        sampleFilterRow.transaction ∈ ["Crédito"] ∧
        sampleFilterRow.category ∈ ["Food"]) ∧
    filter_data [sampleFilterRow] 0 10 [] [] [] = [] ∧
    filter_data [sampleFilterRow] 10 0 ["Entrada"] ["Crédito"] ["Food"] = [] :=
  ⟨(filter_data_conjunction [sampleFilterRow] 0 10 ["Entrada"] ["Crédito"] ["Food"]).1
      sampleFilterRow,
   (filter_data_conjunction [sampleFilterRow] 0 10 [] [] []).2.1 (Or.inl rfl),
   (filter_data_conjunction [sampleFilterRow] 10 0 ["Entrada"] ["Crédito"] ["Food"]).2.2
      (by decide)⟩

/-- Claim C6: filtering with a date range covering every row and allow
lists containing every occurring value returns the collection itself:
same rows, same values, same order (and the pure model never mutates
its input by construction). -/
theorem filter_data_full_range_roundtrip (data : List Row)
    (start_date end_date : Int) (types : List String)
    (transactions : List String) (categories : List String)
    (hdate : ∀ r ∈ data, start_date ≤ r.date ∧ r.date ≤ end_date)
    (htypes : ∀ r ∈ data, r.type ∈ types)
    (htrans : ∀ r ∈ data, r.transaction ∈ transactions)
    (hcats : ∀ r ∈ data, r.category ∈ categories) :
    filter_data data start_date end_date types transactions categories = data := by
  unfold filter_data
  rw [List.filter_eq_self]
  intro r hr
  have h1 := hdate r hr
  simp [h1.1, h1.2, htypes r hr, htrans r hr, hcats r hr]

/-- Row used by the C6 witness. -/
def sampleRoundtripRow : Row :=
  { date := 5, type := "Saída", transaction := "Débito", category := "Casa", title := "t", amount := -1 }

/-- Witness for C6 at a concrete collection. -/
theorem filter_data_full_range_roundtrip_witness :
    filter_data [sampleRoundtripRow] 0 10 ["Saída"] ["Débito"] ["Casa"]
      = [sampleRoundtripRow] :=
  filter_data_full_range_roundtrip [sampleRoundtripRow] 0 10 ["Saída"] ["Débito"] ["Casa"]
    (by decide) (by decide) (by decide) (by decide)

/-- Claim C7: with an empty keyword mapping, `categorize_data` assigns
every record the fixed default `"Outros"` when the collection has no
category column, and otherwise only title-cases each record's existing
category; all other fields are unchanged in both branches, with the
same rows in the same order. -/
theorem categorize_empty_mapping_fallback (data : List Row)
    (alternative_category : AltCategory) :
    List.Forall₂ (fun r r' => r'.category = "Outros" ∧ r'.date = r.date ∧
        r'.type = r.type ∧ r'.transaction = r.transaction ∧ r'.title = r.title ∧
        r'.amount = r.amount)
      data (categorize_data data false [] alternative_category) ∧
    List.Forall₂ (fun r r' => r'.category = toTitlecase r.category ∧ r'.date = r.date ∧
        r'.type = r.type ∧ r'.transaction = r.transaction ∧ r'.title = r.title ∧
        r'.amount = r.amount)
      data (categorize_data data true [] alternative_category) := by
  constructor
  · show List.Forall₂ _ data (with_category data _)
    exact forall₂_map_self _ (fun r => ⟨rfl, rfl, rfl, rfl, rfl, rfl⟩) data
  · show List.Forall₂ _ data (with_category data _)
    exact forall₂_map_self _ (fun r => ⟨rfl, rfl, rfl, rfl, rfl, rfl⟩) data

/-- Claim C9: `concat_sort_data` returns exactly the rows of the
concatenation of its inputs (a permutation: no row added, dropped or
modified) in non-increasing order of the sort key. -/
theorem concat_sort_perm_and_descending (data : List (List Row))
    (date_column : Row → Int) :
    (concat_sort_data data date_column).Perm data.flatten ∧
    (concat_sort_data data date_column).Pairwise
      (fun a b => date_column b ≤ date_column a) := by
  constructor
  · exact List.mergeSort_perm _ _
  · have htrans : ∀ a b c : Row,
        (fun a b => decide (date_column b ≤ date_column a)) a b = true →
        (fun a b => decide (date_column b ≤ date_column a)) b c = true →
        (fun a b => decide (date_column b ≤ date_column a)) a c = true := by
      intro a b c h1 h2
      simp only [decide_eq_true_eq] at h1 h2 ⊢
      omega
    have htotal : ∀ a b : Row,
        ((fun a b => decide (date_column b ≤ date_column a)) a b ||
          (fun a b => decide (date_column b ≤ date_column a)) b a) = true := by
      intro a b
      simp only [Bool.or_eq_true, decide_eq_true_eq]
      omega
    have h := List.sorted_mergeSort htrans htotal data.flatten
    unfold concat_sort_data
    exact h.imp (by intro a b hab; simpa using hab)

/-- Claim C10: with a non-empty keyword mapping, `categorize_data`
changes only the `category` column: the output has the same number of
rows in the same order, and every other field of each row equals that
of the corresponding input row. -/
theorem categorize_changes_only_category (data : List Row)
    (has_category_column : Bool) (category_keywords : List (String × List String))
    (alternative_category : AltCategory) (_h : category_keywords ≠ []) :
    (categorize_data data has_category_column category_keywords
        alternative_category).length = data.length ∧
    List.Forall₂ (fun r r' => r'.date = r.date ∧ r'.type = r.type ∧
        r'.transaction = r.transaction ∧ r'.title = r.title ∧ r'.amount = r.amount)
      data (categorize_data data has_category_column category_keywords
        alternative_category) := by
  have hf := frameEq_categorize data has_category_column category_keywords
    alternative_category
  exact ⟨hf.length_eq.symm, hf⟩

/-- Row used by the C10 witness. -/
def sampleCategorizeRow : Row :=
  { date := 1, type := "Saída", transaction := "Crédito", category := "old", title := "pizza place", amount := -4 }

/-- Witness for C10 at a concrete one-row frame and one-pair mapping. -/
theorem categorize_changes_only_category_witness :
    ([("Food", ["pizza"])] : List (String × List String)) ≠ [] ∧
    ((categorize_data [sampleCategorizeRow] true [("Food", ["pizza"])]
        (.lit "Outros")).length = [sampleCategorizeRow].length ∧
      List.Forall₂ (fun r r' => r'.date = r.date ∧ r'.type = r.type ∧
          r'.transaction = r.transaction ∧ r'.title = r.title ∧ r'.amount = r.amount)
        [sampleCategorizeRow]
        (categorize_data [sampleCategorizeRow] true [("Food", ["pizza"])]
          (.lit "Outros"))) :=
  ⟨by decide,
   categorize_changes_only_category [sampleCategorizeRow] true [("Food", ["pizza"])]
     (.lit "Outros") (by decide)⟩

end FinancialTracker
